import Mathlib

/-!
Verification development for the crypto_history assembly pipeline
(src/crypto_history/core/primitive_data_builder.py).

The pandas DataFrame is modelled shallowly as a list of named columns, an
integer row index, and one row of optional cell values per index position
(a missing value / NaN is modelled as none).  The asynchronous fetches are
modelled by passing the fetch result (an Except value to capture fetch
failure) explicitly; the mutable object state (the cached example history,
the caller-owned field list) is passed and returned explicitly.
-/

namespace CryptoHistory

/-- Model of a pandas DataFrame: named columns, an integer row index, and one
row of optional cell values per index position (none models NaN). -/
structure DF (α : Type) where
  columns : List String
  index : List Int
  rows : List (List (Option α))
  deriving DecidableEq

variable {α : Type}

/-- Model of the pandas constructor pd.DataFrame(ticker_history): the records
become the rows and the index is the default RangeIndex 0..n-1. -/
def mkDataFrame (cols : List String) (records : List (List (Option α))) : DF α :=
  { columns := cols
    index := (List.range records.length).map (fun (i : Nat) => (i : Int))
    rows := records }

/-- Model of pandas df.empty: true when either axis has length zero. -/
def DF.empty (df : DF α) : Bool :=
  df.rows.isEmpty || df.columns.isEmpty

/-- Row lookup by index label, as pandas reindex performs it: the row stored at
the label when the label is present, otherwise an all-NaN row. -/
def DF.lookupRow (df : DF α) (i : Int) : List (Option α) :=
  (((df.index.zip df.rows).find? (fun p => p.1 == i)).map (fun p => p.2)).getD
    (df.columns.map (fun _ => none))

/-- Model of pandas df.reindex(newIndex). -/
def DF.reindex (df : DF α) (newIndex : List Int) : DF α :=
  { columns := df.columns, index := newIndex, rows := newIndex.map df.lookupRow }

/-- Model of pandas df.drop(labels, axis=1): remove the labelled columns. -/
def DF.dropCols (df : DF α) (labels : List String) : DF α :=
  { columns := df.columns.filter (fun c => !labels.contains c)
    index := df.index
    rows := df.rows.map (fun r =>
      ((df.columns.zip r).filter (fun p => !labels.contains p.1)).map (fun p => p.2)) }

/-- drop_unnecessary_columns_from_df (primitive_data_builder.py, lines 211-223):
collect the columns not in necessary_columns and drop them. -/
def drop_unnecessary_columns_from_df (df : DF α) (necessary_columns : List String) : DF α :=
  let unnecessary_columns := df.columns.filter (fun col => !necessary_columns.contains col)
  df.dropCols unnecessary_columns

/-- append_weight_column_to_df (lines 266-269): the pandas scalar column
assignment df[column_name] = column_value broadcasts the value to every row,
appending the column when its label is new. -/
def append_weight_column_to_df (df : DF α) (column_name : String) (column_value : α) : DF α :=
  if df.columns.contains column_name then
    { df with rows := df.rows.map (fun r =>
        (df.columns.zip r).map (fun p => if p.1 == column_name then some column_value else p.2)) }
  else
    { columns := df.columns ++ [column_name]
      index := df.index
      rows := df.rows.map (fun r => r ++ [some column_value]) }

/-- Column read df[c]: the cell stored under column label c, for each row. -/
def DF.colValues (df : DF α) (c : String) : List (Option α) :=
  df.rows.map (fun r =>
    ((df.columns.zip r).find? (fun p => p.1 == c)).bind (fun p => p.2))

/-- calculate_rows_to_add (lines 295-310): expected_rows - df_rows as a Python
int (it may be negative). -/
def calculate_rows_to_add (df : DF α) (list_of_standard_history : List (List (Option α))) : Int :=
  (list_of_standard_history.length : Int) - (df.rows.length : Int)

/-- add_extra_rows_to_bottom (lines 348-362): new trailing index labels
continue from df.index[-1] + 1 and the frame is reindexed over the old labels
followed by the new ones.  Reading df.index[-1] raises IndexError on an empty
index, modelled by the none result. -/
def add_extra_rows_to_bottom (df : DF α) (empty_rows_to_add : Nat) : Option (DF α) :=
  match df.index.getLast? with
  | none => none
  | some last =>
      let new_indices_to_add :=
        (List.range empty_rows_to_add).map (fun (i : Nat) => last + 1 + (i : Int))
      some (df.reindex (df.index ++ new_indices_to_add))

/-- pad_extra_rows_if_necessary (lines 312-327): pad only when rows_to_add is
positive, otherwise return the frame unchanged. -/
def pad_extra_rows_if_necessary (history_df : DF α)
    (example_raw_history : List (List (Option α))) : Option (DF α) :=
  let rows_to_add := calculate_rows_to_add history_df example_raw_history
  if 0 < rows_to_add then add_extra_rows_to_bottom history_df rows_to_add.toNat
  else some history_df

/-- Exceptions surfaced by get_compatible_df: EmptyDataFrameException from the
empty check, and the Python IndexError that reading df.index[-1] would raise
inside add_extra_rows_to_bottom on an empty index. -/
inductive HistErr : Type
  | emptyDataFrame
  | indexError
  deriving DecidableEq

/-- get_compatible_df (lines 329-346): build the DataFrame from the raw ticker
history, raise EmptyDataFrameException when it is empty, otherwise pad it to
the depth of the cached example history. -/
def get_compatible_df (raw_columns : List String) (ticker_history : List (List (Option α)))
    (example_raw_history : List (List (Option α))) : Except HistErr (DF α) :=
  let history_df := mkDataFrame raw_columns ticker_history
  if history_df.empty then
    Except.error HistErr.emptyDataFrame
  else
    match pad_extra_rows_if_necessary history_df example_raw_history with
    | some padded_df => Except.ok padded_df
    | none => Except.error HistErr.indexError

/-- The per-pair normalization performed inside populate_container (lines
279-287): get_compatible_df, then drop_unnecessary_columns_from_df against the
resolved ohlcv_fields, then append the weight column valued at the configured
interval. -/
def normalize_history (raw_columns necessary_columns : List String) (interval : α)
    (example_raw_history ticker_history : List (List (Option α))) : Except HistErr (DF α) :=
  match get_compatible_df raw_columns ticker_history example_raw_history with
  | Except.error e => Except.error e
  | Except.ok history_df =>
      Except.ok (append_weight_column_to_df
        (drop_unnecessary_columns_from_df history_df necessary_columns) "weight" interval)

/-- SlotTable: the transposed (field x time) table that one Container slot
holds after the insertion data_container.loc[b, r] = history_df.transpose(). -/
structure SlotTable (α : Type) where
  fields : List String
  index : List Int
  cells : List (List (Option α))
  deriving DecidableEq

/-- Matrix transpose of the row-major cell grid, as pandas df.transpose()
realigns a (time x field) frame into (field x time). -/
def transposeCells (ncols : Nat) (rows : List (List (Option α))) : List (List (Option α)) :=
  (List.range ncols).map (fun j => rows.map (fun r => r.getD j none))

/-- Model of pandas df.transpose() at the point of container insertion. -/
def DF.transpose (df : DF α) : SlotTable α :=
  { fields := df.columns, index := df.index, cells := transposeCells df.columns.length df.rows }

/-- Container: the 4-dimensional xarray viewed slot-wise as a map from the
(base asset, reference asset) coordinate to the optional table stored there
(none = the slot was never written and keeps its initial null value). -/
def Container (α : Type) : Type := String × String → Option (SlotTable α)

/-- set_coords_dimensions_in_empty_container (lines 154-165):
xr.DataArray(None, coords, dims) leaves every slot null. -/
def set_coords_dimensions_in_empty_container (α : Type) : Container α := fun _ => none

/-- The low-level insertion _insert_coin_history_in_container (lines 250-264):
data_container.loc[base_asset, reference_asset] = history_df.transpose(). -/
def insert_coin_history_in_container (data_container : Container α)
    (base_asset reference_asset : String) (history_df : DF α) : Container α :=
  fun p => if p = (base_asset, reference_asset) then some history_df.transpose
           else data_container p

/-- populate_container (lines 271-293): iterate over the fetched per-pair
histories; a pair whose get_compatible_df raises EmptyDataFrameException is
skipped (continue); any other exception propagates and aborts the build; a
successfully normalized table is inserted at its (base, reference) slot. -/
def populate_container (data_container : Container α) (necessary_columns : List String)
    (interval : α) (raw_columns : List String)
    (example_raw_history : List (List (Option α)))
    (historical_data : List ((String × String) × List (List (Option α)))) :
    Except HistErr (Container α) :=
  match historical_data with
  | [] => Except.ok data_container
  | ((base_asset, reference_asset), raw) :: rest =>
      match normalize_history raw_columns necessary_columns interval example_raw_history raw with
      | Except.error HistErr.emptyDataFrame =>
          populate_container data_container necessary_columns interval raw_columns
            example_raw_history rest
      | Except.error e => Except.error e
      | Except.ok history_df =>
          populate_container
            (insert_coin_history_in_container data_container base_asset reference_asset history_df)
            necessary_columns interval raw_columns example_raw_history rest

/-- Iterated slot insertion, as the populate_container loop performs it over
the successfully normalized tables, one _insert_coin_history_in_container call
per pair. -/
def insert_all (data_container : Container α)
    (items : List ((String × String) × DF α)) : Container α :=
  items.foldl
    (fun c item => insert_coin_history_in_container c item.1.1 item.1.2 item.2)
    data_container

/-- One record of the raw ticker pool: a dict carrying the "symbol" key (the
other exchange fields are irrelevant to the selection). -/
structure RawTicker where
  symbol : String
  deriving DecidableEq

/-- The pair-selection loop of
get_historical_data_relevant_coins_from_base_and_reference_assets (lines
93-98): for every (base, reference) combination of the two input lists, the
pair is captured when base ++ reference equals the symbol of some raw ticker
of the pool. -/
def tickers_to_capture (base_assets reference_assets : List String)
    (raw_ticker_pool : List RawTicker) : List (String × String) :=
  base_assets.flatMap (fun base_asset =>
    reference_assets.filterMap (fun reference_asset =>
      if raw_ticker_pool.any
          (fun raw_ticker => base_asset ++ reference_asset == raw_ticker.symbol) then
        some (base_asset, reference_asset)
      else none))

/-- The Dimensions dataclass (lines 128-134), with the time-index axis kept as
a list of naturals. -/
structure Dimensions where
  base_assets : List String
  reference_assets : List String
  ohlcv_fields : List String
  index_number : List Nat
  deriving DecidableEq

/-- get_dimension_coordinates_from_fields_and_assets (lines 167-178).
Python list.append mutates the caller-supplied ohlcv_fields list in place, so
the function is modelled as returning both the post-call state of the caller's
list (first component) and the Dimensions built from it (second component).
The index_number axis, obtained from get_depth_of_indices, is a parameter. -/
def get_dimension_coordinates_from_fields_and_assets
    (ohlcv_fields base_assets reference_assets : List String)
    (index_number : List Nat) : List String × Dimensions :=
  let fields_after_append := ohlcv_fields ++ ["weight"]
  (fields_after_append,
    { base_assets := base_assets
      reference_assets := reference_assets
      ohlcv_fields := fields_after_append
      index_number := index_number })

/-- The caching fetch of the example raw history (initialize_example, lines
45-54): the body is self.example_raw_history = self.example_raw_history or
list(await fetch).  Python treats both None and the empty list as falsy, so
the fetch runs unless a non-empty history is already cached.  The result holds
the value returned to the caller, the new cached state, and whether a fetch
was performed. -/
def init_example {R E : Type} (example_raw_history : Option (List R))
    (fetch : Except E (List R)) : Except E (List R × Option (List R) × Bool) :=
  match example_raw_history with
  | some h =>
      if h.isEmpty then
        match fetch with
        | Except.ok f => Except.ok (f, some f, true)
        | Except.error e => Except.error e
      else Except.ok (h, some h, false)
  | none =>
      match fetch with
      | Except.ok f => Except.ok (f, some f, true)
      | Except.error e => Except.error e

/-- get_depth_of_indices (lines 140-152): resolve the example history, then
return list(range(len(example_history))). -/
def get_depth_of_indices {R E : Type} (example_raw_history : Option (List R))
    (fetch : Except E (List R)) : Except E (List Nat) :=
  match init_example example_raw_history fetch with
  | Except.ok r => Except.ok (List.range r.1.length)
  | Except.error e => Except.error e

/-- The state of a PrimitiveCoinHistoryObtainer after construction (the
factory-made market collaborators are the excluded network adapters and carry
no state relevant to these claims). -/
structure PrimitiveCoinHistoryObtainer (R : Type) where
  interval : String
  start_str : String
  end_str : String
  limit : Nat
  ticker_pool : Option (List RawTicker)
  example_raw_history : Option (List R)
  deriving DecidableEq

/-- The constructor body of PrimitiveCoinHistoryObtainer (lines 16-43): the
assert raises AssertionError with the given message when limit > 1000,
otherwise the state fields are set with both caches empty. -/
def PrimitiveCoinHistoryObtainer.construct (R : Type) (interval start_str end_str : String)
    (limit : Nat) : Except String (PrimitiveCoinHistoryObtainer R) :=
  if limit ≤ 1000 then
    Except.ok
      { interval := interval
        start_str := start_str
        end_str := end_str
        limit := limit
        ticker_pool := none
        example_raw_history := none }
  else
    Except.error "Binance will not accept intervals greater than 1000. Reduce it!"

/-! ### Helper lemmas about the DataFrame model -/

lemma find_zip_none {β : Type} (idx : List Int) (rows : List β) (i : Int) (h : i ∉ idx) :
    (idx.zip rows).find? (fun p => p.1 == i) = none := by
  induction idx generalizing rows with
  | nil => simp
  | cons a idx ih =>
    cases rows with
    | nil => simp
    | cons b rows =>
      rw [List.zip_cons_cons, List.find?_cons_of_neg]
      · exact ih rows (fun hm => h (List.mem_cons_of_mem a hm))
      · simp only [beq_iff_eq]
        exact fun e => h (e ▸ List.mem_cons_self a idx)

lemma map_find_zip {β : Type} (idx : List Int) (rows : List β) (d : β)
    (hnd : idx.Nodup) (hlen : idx.length = rows.length) :
    idx.map (fun i =>
        (((idx.zip rows).find? (fun p => p.1 == i)).map (fun p => p.2)).getD d) = rows := by
  induction idx generalizing rows with
  | nil =>
    cases rows with
    | nil => rfl
    | cons b rows => simp at hlen
  | cons a idx ih =>
    cases rows with
    | nil => simp at hlen
    | cons b rows =>
      have hna : a ∉ idx := (List.nodup_cons.mp hnd).1
      have hnd2 : idx.Nodup := (List.nodup_cons.mp hnd).2
      have hlen2 : idx.length = rows.length := by simpa using hlen
      rw [List.zip_cons_cons, List.map_cons]
      have hhead :
          ((((a, b) :: idx.zip rows).find? (fun p => p.1 == a)).map (fun p => p.2)).getD d
            = b := by
        rw [List.find?_cons_of_pos]
        · rfl
        · simp
      have hcongr : ∀ i ∈ idx,
          ((((a, b) :: idx.zip rows).find? (fun p => p.1 == i)).map (fun p => p.2)).getD d
            = (((idx.zip rows).find? (fun p => p.1 == i)).map (fun p => p.2)).getD d := by
        intro i hi
        rw [List.find?_cons_of_neg]
        simp only [beq_iff_eq]
        exact fun e => hna (e ▸ hi)
      rw [hhead, List.map_congr_left hcongr, ih rows hnd2 hlen2]

lemma getLast_range_map_int (n : Nat) (hn : n ≠ 0) :
    ((List.range n).map (fun (i : Nat) => (i : Int))).getLast? = some (((n - 1 : Nat) : Int)) := by
  obtain ⟨m, rfl⟩ := Nat.exists_eq_succ_of_ne_zero hn
  rw [List.range_succ, List.map_append]
  simp

lemma mem_range_map_int {n : Nat} {x : Int} :
    x ∈ (List.range n).map (fun (i : Nat) => (i : Int)) ↔ 0 ≤ x ∧ x < (n : Int) := by
  simp only [List.mem_map, List.mem_range]
  constructor
  · rintro ⟨i, hi, rfl⟩
    exact ⟨by omega, by omega⟩
  · rintro ⟨h0, hlt⟩
    exact ⟨x.toNat, by omega, by omega⟩

lemma nodup_range_map_int (n : Nat) : ((List.range n).map (fun (i : Nat) => (i : Int))).Nodup :=
  (List.nodup_range n).map (fun a b h => by omega)

lemma pad_mkDataFrame_of_ge (cols : List String) (records ex : List (List (Option α)))
    (hge : ex.length ≤ records.length) :
    pad_extra_rows_if_necessary (mkDataFrame cols records) ex = some (mkDataFrame cols records) := by
  have hneg : ¬ (0 < calculate_rows_to_add (mkDataFrame cols records) ex) := by
    simp only [calculate_rows_to_add, mkDataFrame]
    omega
  simp only [pad_extra_rows_if_necessary, if_neg hneg]

lemma add_extra_eq (df : DF α) (k : Nat) (last : Int)
    (h : df.index.getLast? = some last) :
    add_extra_rows_to_bottom df k =
      some (df.reindex (df.index ++ (List.range k).map (fun (i : Nat) => last + 1 + (i : Int)))) := by
  simp only [add_extra_rows_to_bottom, h]

lemma pad_mkDataFrame_of_lt (cols : List String) (records ex : List (List (Option α)))
    (hne : records ≠ []) (hlt : records.length < ex.length) :
    pad_extra_rows_if_necessary (mkDataFrame cols records) ex =
      some { columns := cols
             index := (List.range records.length).map (fun (i : Nat) => (i : Int)) ++
               (List.range (ex.length - records.length)).map
                 (fun (i : Nat) => (records.length : Int) + (i : Int))
             rows := records ++
               List.replicate (ex.length - records.length) (cols.map (fun _ => none)) } := by
  have hn0 : records.length ≠ 0 := fun h => hne (List.eq_nil_of_length_eq_zero h)
  have hpos : 0 < calculate_rows_to_add (mkDataFrame cols records) ex := by
    simp only [calculate_rows_to_add, mkDataFrame]
    omega
  have htoNat : (calculate_rows_to_add (mkDataFrame cols records) ex).toNat
      = ex.length - records.length := by
    simp only [calculate_rows_to_add, mkDataFrame]
    omega
  have hlast : (mkDataFrame cols records).index.getLast?
      = some (((records.length - 1 : Nat) : Int)) :=
    getLast_range_map_int records.length hn0
  rw [pad_extra_rows_if_necessary]
  rw [if_pos hpos, htoNat, add_extra_eq (mkDataFrame cols records) _ _ hlast]
  have hfresh : (List.range (ex.length - records.length)).map
        (fun (i : Nat) => ((records.length - 1 : Nat) : Int) + 1 + (i : Int))
      = (List.range (ex.length - records.length)).map
        (fun (i : Nat) => (records.length : Int) + (i : Int)) := by
    apply List.map_congr_left
    intro i _
    omega
  rw [hfresh]
  have hrows : ((List.range records.length).map (fun (i : Nat) => (i : Int)) ++
        (List.range (ex.length - records.length)).map
          (fun (i : Nat) => (records.length : Int) + (i : Int))).map
            (mkDataFrame cols records).lookupRow
      = records ++ List.replicate (ex.length - records.length) (cols.map (fun _ => none)) := by
    rw [List.map_append]
    have h1 : ((List.range records.length).map (fun (i : Nat) => (i : Int))).map
          (mkDataFrame cols records).lookupRow = records := by
      have hmf := map_find_zip ((List.range records.length).map (fun (i : Nat) => (i : Int))) records
        (cols.map (fun _ => none)) (nodup_range_map_int records.length) (by simp)
      exact hmf
    have h2 : ((List.range (ex.length - records.length)).map
          (fun (i : Nat) => (records.length : Int) + (i : Int))).map
            (mkDataFrame cols records).lookupRow
        = List.replicate (ex.length - records.length) (cols.map (fun _ => none)) := by
      rw [List.map_map, List.eq_replicate_iff]
      refine ⟨by simp, ?_⟩
      intro b hb
      simp only [List.mem_map, List.mem_range, Function.comp] at hb
      obtain ⟨i, hi, rfl⟩ := hb
      have hnotmem : ((records.length : Int) + (i : Int)) ∉
          (List.range records.length).map (fun (j : Nat) => (j : Int)) := by
        rw [mem_range_map_int]
        omega
      simp [DF.lookupRow, mkDataFrame, find_zip_none _ _ _ hnotmem]
    rw [h1, h2]
  simp only [DF.reindex, mkDataFrame] at hrows ⊢
  rw [hrows]

lemma pad_mkDataFrame_isSome (cols : List String) (records ex : List (List (Option α)))
    (hne : records ≠ []) :
    ∃ df, pad_extra_rows_if_necessary (mkDataFrame cols records) ex = some df := by
  by_cases h : records.length < ex.length
  · exact ⟨_, pad_mkDataFrame_of_lt cols records ex hne h⟩
  · exact ⟨_, pad_mkDataFrame_of_ge cols records ex (by omega)⟩

/-! ### Claim theorems -/

/-- Claim C1: for a table derived from a non-empty raw history, padding to the
resolved depth appends exactly (expectedRows - actualRows) trailing all-null
rows whose index values are the contiguous integers continuing from the last
original index value when the table is shorter than the depth, and returns the
table unchanged (no truncation) when it already has at least that many rows. -/
theorem C1_row_padding (cols : List String) (records ex : List (List (Option α)))
    (hne : records ≠ []) :
    (records.length < ex.length →
      pad_extra_rows_if_necessary (mkDataFrame cols records) ex =
        some { columns := cols
               index := (mkDataFrame cols records).index ++
                 (List.range (ex.length - records.length)).map
                   (fun (i : Nat) => (records.length : Int) + (i : Int))
               rows := records ++
                 List.replicate (ex.length - records.length) (cols.map (fun _ => none)) })
    ∧ (ex.length ≤ records.length →
      pad_extra_rows_if_necessary (mkDataFrame cols records) ex
        = some (mkDataFrame cols records)) :=
  ⟨fun h => pad_mkDataFrame_of_lt cols records ex hne h,
   fun h => pad_mkDataFrame_of_ge cols records ex h⟩

/-- Witness for C1 at a concrete input: a one-row table padded to depth three
gains two trailing null rows with indices 1 and 2, and a three-row table at
depth one is returned unchanged. -/
theorem C1_row_padding_witness :
    (([[some (1:Nat)]] : List (List (Option Nat))) ≠ [] ∧
      pad_extra_rows_if_necessary (mkDataFrame ["open"] [[some (1:Nat)]])
          [[some 1], [some 1], [some 1]] =
        some { columns := ["open"]
               index := (mkDataFrame ["open"] [[some (1:Nat)]]).index ++
                 (List.range 2).map (fun (i : Nat) => ((1 : Nat) : Int) + (i : Int))
               rows := [[some 1]] ++ List.replicate 2 (["open"].map (fun _ => none)) })
    ∧ pad_extra_rows_if_necessary (mkDataFrame ["open"] [[some (1:Nat)], [some 2], [some 3]])
          [[some 1]] =
        some (mkDataFrame ["open"] [[some (1:Nat)], [some 2], [some 3]]) :=
  ⟨⟨by decide,
    (C1_row_padding ["open"] [[some (1:Nat)]] [[some 1], [some 1], [some 1]] (by decide)).1
      (by decide)⟩,
   (C1_row_padding ["open"] [[some (1:Nat)], [some 2], [some 3]] [[some 1]] (by decide)).2
     (by decide)⟩

lemma get_compatible_not_indexError (cols : List String)
    (hist ex : List (List (Option α))) :
    get_compatible_df cols hist ex ≠ Except.error HistErr.indexError := by
  rw [get_compatible_df]
  by_cases hemp : (mkDataFrame cols hist).empty
  · simp [hemp]
  · have hne : hist ≠ [] := by
      intro h
      subst h
      exact hemp (by simp [mkDataFrame, DF.empty])
    obtain ⟨df, hdf⟩ := pad_mkDataFrame_isSome cols hist ex hne
    simp [hemp, hdf]

/-- Claim C10: the EmptyDataFrame check in get_compatible_df fires before any
padding, so the df.index[-1] access inside add_extra_rows_to_bottom is always
well-defined and its out-of-range failure branch is unreachable: the IndexError
outcome can never be produced, for any input. -/
theorem C10_index_access_unreachable (cols : List String)
    (hist ex : List (List (Option α))) :
    get_compatible_df cols hist ex ≠ Except.error HistErr.indexError :=
  get_compatible_not_indexError cols hist ex

/-- Claim C4: the selected pair set contains (base, reference) from the
cartesian product of the two input lists exactly when the concatenation
base ++ reference equals the symbol of some record of the raw ticker pool. -/
theorem C4_pair_selection (base_assets reference_assets : List String)
    (raw_ticker_pool : List RawTicker) (b r : String) :
    (b, r) ∈ tickers_to_capture base_assets reference_assets raw_ticker_pool ↔
      b ∈ base_assets ∧ r ∈ reference_assets ∧
        ∃ t ∈ raw_ticker_pool, b ++ r = t.symbol := by
  simp only [tickers_to_capture, List.mem_flatMap, List.mem_filterMap]
  constructor
  · rintro ⟨ba, hba, re, hre, hif⟩
    by_cases hany : raw_ticker_pool.any (fun t => ba ++ re == t.symbol)
    · rw [if_pos hany] at hif
      have hpair : (ba, re) = (b, r) := Option.some_injective _ hif
      have hb : ba = b := congrArg Prod.fst hpair
      have hr : re = r := congrArg Prod.snd hpair
      subst hb
      subst hr
      simp only [List.any_eq_true, beq_iff_eq] at hany
      obtain ⟨t, ht, hsym⟩ := hany
      exact ⟨hba, hre, t, ht, hsym⟩
    · rw [if_neg hany] at hif
      exact absurd hif (by simp)
  · rintro ⟨hb, hr, t, ht, hsym⟩
    refine ⟨b, hb, r, hr, ?_⟩
    rw [if_pos]
    simp only [List.any_eq_true, beq_iff_eq]
    exact ⟨t, ht, hsym⟩

/-- Claim C5, code divergence at a concrete input: the resolver appends
"weight" to the caller-supplied list in place, so calling it twice with the
same list argument accumulates two "weight" entries instead of leaving the
caller's list unmutated. -/
theorem C5_mutation_accumulates :
    (get_dimension_coordinates_from_fields_and_assets ["open"] ["ETH"] ["BTC"] [0]).1
        = ["open", "weight"]
    ∧ (get_dimension_coordinates_from_fields_and_assets
          (get_dimension_coordinates_from_fields_and_assets ["open"] ["ETH"] ["BTC"] [0]).1
          ["ETH"] ["BTC"] [0]).2.ohlcv_fields
        = ["open", "weight", "weight"] :=
  ⟨rfl, rfl⟩

/-- Counterexample to Claim C6 as stated: a first call that succeeds with an
empty fetched history caches the empty list, and the subsequent call performs
another fetch (flag true) and returns the new fetch result [7] instead of the
cached value, because the Python expression cached or fetch treats the cached
empty list as falsy. -/
theorem C6_counterexample :
    init_example (none : Option (List Nat)) (Except.ok ([] : List Nat) : Except Unit _)
        = Except.ok ([], some [], true)
    ∧ init_example (some ([] : List Nat)) (Except.ok [7] : Except Unit _)
        = Except.ok ([7], some [7], true) :=
  ⟨rfl, rfl⟩

/-- Claim C6 (amended): once a call has cached a non-empty example history,
every subsequent call returns that cached value without performing another
fetch, whatever the new fetch would return or even if it would fail. -/
theorem C6_cached_fetch_idempotent {R E : Type} (h : List R) (fetch : Except E (List R))
    (hne : h ≠ []) :
    init_example (some h) fetch = Except.ok (h, some h, false) := by
  have hisE : h.isEmpty = false := by
    cases h with
    | nil => exact absurd rfl hne
    | cons a t => rfl
  simp [init_example, hisE]

/-- Witness for the amended C6: with [3] cached, a subsequent call returns the
cached history and performs no fetch even though the fetch would fail. -/
theorem C6_cached_fetch_idempotent_witness :
    init_example (some [(3 : Nat)]) (Except.error () : Except Unit (List Nat))
      = Except.ok ([3], some [3], false) :=
  C6_cached_fetch_idempotent [3] (Except.error ()) (by decide)

/-- Claim C7: when the example history resolves successfully to a history of n
records, get_depth_of_indices returns the ordered list [0, 1, ..., n-1]; when
the example fetch itself fails on first resolution, that error is propagated
unchanged to the caller. -/
theorem C7_depth_of_indices {R E : Type} (state : Option (List R))
    (fetch : Except E (List R)) :
    (∀ h rest, init_example state fetch = Except.ok (h, rest) →
        get_depth_of_indices state fetch = Except.ok (List.range h.length))
    ∧ (∀ e, fetch = Except.error e → state = none →
        get_depth_of_indices state fetch = Except.error e) := by
  constructor
  · intro h rest hok
    rw [get_depth_of_indices, hok]
  · rintro e rfl rfl
    rfl

/-- Witness for C7: a two-record example history yields depth [0, 1], and a
failing first fetch propagates its error. -/
theorem C7_depth_of_indices_witness :
    get_depth_of_indices (none : Option (List Unit)) (Except.ok [(), ()] : Except Nat _)
        = Except.ok [0, 1]
    ∧ get_depth_of_indices (none : Option (List Unit)) (Except.error 7 : Except Nat _)
        = Except.error 7 := by
  constructor
  · have h := (C7_depth_of_indices (none : Option (List Unit))
      (Except.ok [(), ()] : Except Nat _)).1 [(), ()] (some [(), ()], true) rfl
    simpa using h
  · exact (C7_depth_of_indices (none : Option (List Unit))
      (Except.error 7 : Except Nat _)).2 7 rfl rfl

/-- Claim C9: constructing the history obtainer with limit > 1000 fails
immediately with the distinguishable AssertionError message of the limit
check, and any limit up to 1000 passes the check and yields the constructed
state. -/
theorem C9_limit_check (R : Type) (interval start_str end_str : String) (limit : Nat) :
    (1000 < limit →
      PrimitiveCoinHistoryObtainer.construct R interval start_str end_str limit
        = Except.error "Binance will not accept intervals greater than 1000. Reduce it!")
    ∧ (limit ≤ 1000 →
      PrimitiveCoinHistoryObtainer.construct R interval start_str end_str limit
        = Except.ok { interval := interval
                      start_str := start_str
                      end_str := end_str
                      limit := limit
                      ticker_pool := none
                      example_raw_history := none }) := by
  constructor
  · intro h
    rw [PrimitiveCoinHistoryObtainer.construct, if_neg (by omega)]
  · intro h
    rw [PrimitiveCoinHistoryObtainer.construct, if_pos h]

/-- Witness for C9: limit 1001 is rejected with the assertion message and
limit 1000 is accepted. -/
theorem C9_limit_check_witness :
    PrimitiveCoinHistoryObtainer.construct Nat "1d" "start" "end" 1001
        = Except.error "Binance will not accept intervals greater than 1000. Reduce it!"
    ∧ PrimitiveCoinHistoryObtainer.construct Nat "1d" "start" "end" 1000
        = Except.ok { interval := "1d"
                      start_str := "start"
                      end_str := "end"
                      limit := 1000
                      ticker_pool := none
                      example_raw_history := none } :=
  ⟨(C9_limit_check Nat "1d" "start" "end" 1001).1 (by decide),
   (C9_limit_check Nat "1d" "start" "end" 1000).2 (by decide)⟩

/-! ### Helper lemmas for the column pipeline -/

lemma drop_columns_eq (df : DF α) (nec : List String) :
    (drop_unnecessary_columns_from_df df nec).columns
      = df.columns.filter (fun c => nec.contains c) := by
  simp only [drop_unnecessary_columns_from_df, DF.dropCols]
  apply List.filter_congr
  intro c hc
  by_cases h : c ∈ nec
  · simp [h, List.mem_filter]
  · simp [h, List.mem_filter, hc]

lemma drop_rows_eq (df : DF α) (nec : List String) :
    (drop_unnecessary_columns_from_df df nec).rows
      = df.rows.map (fun r =>
          ((df.columns.zip r).filter (fun p => nec.contains p.1)).map (fun p => p.2)) := by
  simp only [drop_unnecessary_columns_from_df, DF.dropCols]
  apply List.map_congr_left
  intro r _
  refine congrArg _ (List.filter_congr ?_)
  intro p hp
  have hmem : p.1 ∈ df.columns := (List.of_mem_zip hp).1
  by_cases h : p.1 ∈ nec
  · simp [h, List.mem_filter]
  · simp [h, List.mem_filter, hmem]

lemma drop_index_eq (df : DF α) (nec : List String) :
    (drop_unnecessary_columns_from_df df nec).index = df.index := rfl

lemma append_weight_new (df : DF α) (w : String) (v : α) (hw : w ∉ df.columns) :
    append_weight_column_to_df df w v =
      { columns := df.columns ++ [w]
        index := df.index
        rows := df.rows.map (fun r => r ++ [some v]) } := by
  rw [append_weight_column_to_df, if_neg]
  simp [hw]

lemma filter_zip_length {β : Type} (p : String → Bool) :
    ∀ (cols : List String) (r : List β), cols.length = r.length →
      (((cols.zip r).filter (fun q => p q.1)).map (fun q => q.2)).length
        = (cols.filter p).length := by
  intro cols
  induction cols with
  | nil => intro r h; simp
  | cons c cols ih =>
    intro r h
    cases r with
    | nil => simp at h
    | cons x r =>
      rw [List.zip_cons_cons, List.filter_cons, List.filter_cons]
      by_cases hc : p (c, x).1
      · simp only [hc, if_pos, List.map_cons, List.length_cons]
        rw [ih r (by simpa using h)]
      · simp only [hc] at *
        simp only [if_neg, Bool.false_eq_true, not_false_iff]
        rw [ih r (by simpa using h)]

lemma find_zip_append_last (w : String) (v : Option α) :
    ∀ (cols : List String) (r : List (Option α)), w ∉ cols → cols.length = r.length →
      ((cols ++ [w]).zip (r ++ [v])).find? (fun p => p.1 == w) = some (w, v) := by
  intro cols
  induction cols with
  | nil =>
    intro r hw hlen
    cases r with
    | nil => simp
    | cons x r => simp at hlen
  | cons c cols ih =>
    intro r hw hlen
    cases r with
    | nil => simp at hlen
    | cons x r =>
      rw [List.cons_append, List.cons_append, List.zip_cons_cons, List.find?_cons_of_neg]
      · exact ih (r := r) (fun hm => hw (List.mem_cons_of_mem c hm)) (by simpa using hlen)
      · simp only [beq_iff_eq]
        exact fun e => hw (e ▸ List.mem_cons_self c cols)

lemma pad_mkDataFrame_props (cols : List String) (records ex : List (List (Option α)))
    (hne : records ≠ []) :
    ∃ df, pad_extra_rows_if_necessary (mkDataFrame cols records) ex = some df
      ∧ df.columns = cols
      ∧ (∀ r ∈ df.rows, r ∈ records ∨ r = cols.map (fun _ => none)) := by
  by_cases h : records.length < ex.length
  · refine ⟨_, pad_mkDataFrame_of_lt cols records ex hne h, rfl, ?_⟩
    intro r hr
    rcases List.mem_append.mp hr with h1 | h2
    · exact Or.inl h1
    · exact Or.inr (List.eq_of_mem_replicate h2)
  · exact ⟨_, pad_mkDataFrame_of_ge cols records ex (by omega), rfl, fun r hr => Or.inl hr⟩

lemma get_compatible_ok (cols : List String) (records ex : List (List (Option α)))
    (hne : records ≠ []) (hcols : cols ≠ []) :
    ∃ df, get_compatible_df cols records ex = Except.ok df
      ∧ pad_extra_rows_if_necessary (mkDataFrame cols records) ex = some df := by
  have hemp : (mkDataFrame cols records).empty = false := by
    simp [DF.empty, mkDataFrame, hne, hcols]
  obtain ⟨df, hdf⟩ := pad_mkDataFrame_isSome cols records ex hne
  refine ⟨df, ?_, hdf⟩
  rw [get_compatible_df]
  simp [hemp, hdf]

/-- Claim C2: for a non-empty raw history whose records carry the raw source
columns, the normalized table's columns are exactly the requested fields plus
one weight column (appended after the drop step, which checks membership in
the resolved field list requested ++ [weight]), whatever extra columns the raw
source carries, and every value of the weight column equals the configured
interval. -/
theorem C2_requested_columns_plus_weight (cols requested : List String)
    (records ex : List (List (Option α))) (interval : α)
    (hne : records ≠ []) (hcols : cols ≠ [])
    (hlen : ∀ r ∈ records, r.length = cols.length)
    (hW : "weight" ∉ cols) (hsub : requested ⊆ cols) :
    ∃ df, normalize_history cols (requested ++ ["weight"]) interval ex records = Except.ok df
      ∧ (∀ c, c ∈ df.columns ↔ (c ∈ requested ∨ c = "weight"))
      ∧ df.columns.count "weight" = 1
      ∧ ∀ v ∈ df.colValues "weight", v = some interval := by
  obtain ⟨pdf, hcompat, hpad⟩ := get_compatible_ok cols records ex hne hcols
  obtain ⟨pdf2, hpad2, hpcols, hprows⟩ := pad_mkDataFrame_props cols records ex hne
  rw [hpad] at hpad2
  obtain rfl : pdf = pdf2 := Option.some_injective _ hpad2
  have hplen : ∀ r ∈ pdf.rows, r.length = cols.length := by
    intro r hr
    rcases hprows r hr with h1 | h2
    · exact hlen r h1
    · rw [h2, List.length_map]
  set nec := requested ++ ["weight"] with hnec
  set dropped := drop_unnecessary_columns_from_df pdf nec with hdropped
  have hdcols : dropped.columns = cols.filter (fun c => nec.contains c) := by
    rw [hdropped, drop_columns_eq, hpcols]
  have hwkept : "weight" ∉ dropped.columns := by
    rw [hdcols]
    intro hmem
    exact hW (List.mem_filter.mp hmem).1
  have hdrows : dropped.rows = pdf.rows.map (fun r0 =>
      ((cols.zip r0).filter (fun p => nec.contains p.1)).map (fun p => p.2)) := by
    rw [hdropped, drop_rows_eq, hpcols]
  have happ := append_weight_new dropped "weight" interval hwkept
  refine ⟨append_weight_column_to_df dropped "weight" interval, ?_, ?_, ?_, ?_⟩
  · simp only [normalize_history, hcompat]
  · intro c
    rw [happ]
    simp only [List.mem_append, List.mem_singleton, hdcols, List.mem_filter, hnec]
    constructor
    · rintro (⟨hc, hn⟩ | hc)
      · simp only [List.contains_eq_any_beq, List.any_eq_true, beq_iff_eq] at hn
        obtain ⟨a, ha, rfl⟩ := hn
        rcases List.mem_append.mp ha with h1 | h2
        · exact Or.inl h1
        · exact Or.inr (List.mem_singleton.mp h2)
      · exact Or.inr hc
    · rintro (hc | rfl)
      · refine Or.inl ⟨hsub hc, ?_⟩
        simp only [List.contains_eq_any_beq, List.any_eq_true, beq_iff_eq]
        exact ⟨c, List.mem_append.mpr (Or.inl hc), rfl⟩
      · exact Or.inr rfl
  · rw [happ]
    simp only [List.count_append]
    rw [List.count_eq_zero.mpr hwkept]
    rfl
  · intro v hv
    rw [happ] at hv
    simp only [DF.colValues, List.map_map, List.mem_map, Function.comp] at hv
    obtain ⟨r, hr, rfl⟩ := hv
    have hrlen : dropped.columns.length = r.length := by
      rw [hdrows] at hr
      simp only [List.mem_map] at hr
      obtain ⟨r0, hr0, rfl⟩ := hr
      rw [hdcols]
      exact (filter_zip_length (fun c => nec.contains c) cols r0 ((hplen r0 hr0).symm)).symm
    rw [find_zip_append_last "weight" (some interval) dropped.columns r hwkept hrlen]
    rfl

/-- Witness for C2, at the spec example: raw columns
open/high/low/close/volume/trades/quoteVolume, requested fields
open/close/volume, interval 1d. -/
theorem C2_requested_columns_plus_weight_witness :
    (([[some "o", some "h", some "l", some "c", some "v", some "t", some "q"]] :
        List (List (Option String))) ≠ []
      ∧ (["open", "high", "low", "close", "volume", "trades", "quoteVolume"] :
        List String) ≠ []
      ∧ ["open", "close", "volume"] ⊆
          ["open", "high", "low", "close", "volume", "trades", "quoteVolume"])
    ∧ ∃ df, normalize_history
          ["open", "high", "low", "close", "volume", "trades", "quoteVolume"]
          (["open", "close", "volume"] ++ ["weight"]) "1d"
          [[some "o", some "h", some "l", some "c", some "v", some "t", some "q"]]
          [[some "o", some "h", some "l", some "c", some "v", some "t", some "q"]]
          = Except.ok df
        ∧ (∀ c, c ∈ df.columns ↔ (c ∈ ["open", "close", "volume"] ∨ c = "weight"))
        ∧ df.columns.count "weight" = 1
        ∧ ∀ v ∈ df.colValues "weight", v = some "1d" :=
  ⟨⟨by decide, by decide, by decide⟩,
   C2_requested_columns_plus_weight
     ["open", "high", "low", "close", "volume", "trades", "quoteVolume"]
     ["open", "close", "volume"]
     [[some "o", some "h", some "l", some "c", some "v", some "t", some "q"]]
     [[some "o", some "h", some "l", some "c", some "v", some "t", some "q"]]
     "1d" (by decide) (by decide) (by decide) (by decide) (by decide)⟩

/-! ### Helper lemmas for the populate loop -/

lemma normalize_empty (cols necessary : List String) (interval : α)
    (exh : List (List (Option α))) :
    normalize_history cols necessary interval exh [] = Except.error HistErr.emptyDataFrame := rfl

lemma normalize_ok_of_nonempty (cols necessary : List String) (interval : α)
    (exh raw : List (List (Option α))) (hraw : raw ≠ []) (hcols : cols ≠ []) :
    ∃ df, normalize_history cols necessary interval exh raw = Except.ok df := by
  obtain ⟨pdf, hcompat, _⟩ := get_compatible_ok cols raw exh hraw hcols
  refine ⟨append_weight_column_to_df (drop_unnecessary_columns_from_df pdf necessary)
    "weight" interval, ?_⟩
  simp only [normalize_history, hcompat]

lemma normalize_not_indexError (cols necessary : List String) (interval : α)
    (exh raw : List (List (Option α))) :
    normalize_history cols necessary interval exh raw ≠ Except.error HistErr.indexError := by
  cases hc : get_compatible_df cols raw exh with
  | ok df => simp [normalize_history, hc]
  | error e =>
    cases e with
    | emptyDataFrame => simp [normalize_history, hc]
    | indexError => exact absurd hc (get_compatible_not_indexError cols raw exh)

lemma populate_ok (necessary : List String) (interval : α) (cols : List String)
    (exh : List (List (Option α))) :
    ∀ (hd : List ((String × String) × List (List (Option α)))) (c : Container α),
      ∃ c2, populate_container c necessary interval cols exh hd = Except.ok c2 := by
  intro hd
  induction hd with
  | nil => exact fun c => ⟨c, rfl⟩
  | cons it rest ih =>
    intro c
    obtain ⟨⟨b, r⟩, raw⟩ := it
    cases hn : normalize_history cols necessary interval exh raw with
    | ok df =>
      obtain ⟨c2, hc2⟩ := ih (insert_coin_history_in_container c b r df)
      exact ⟨c2, by simp only [populate_container, hn]; exact hc2⟩
    | error e =>
      cases e with
      | emptyDataFrame =>
        obtain ⟨c2, hc2⟩ := ih c
        exact ⟨c2, by simp only [populate_container, hn]; exact hc2⟩
      | indexError => exact absurd hn (normalize_not_indexError cols necessary interval exh raw)

lemma populate_frame (necessary : List String) (interval : α) (cols : List String)
    (exh : List (List (Option α))) (x : String × String) :
    ∀ (hd : List ((String × String) × List (List (Option α)))) (c c2 : Container α),
      populate_container c necessary interval cols exh hd = Except.ok c2 →
      x ∉ hd.map (fun item => item.1) →
      c2 x = c x := by
  intro hd
  induction hd with
  | nil =>
    intro c c2 h _
    cases h
    rfl
  | cons it rest ih =>
    intro c c2 h hx
    obtain ⟨⟨b, r⟩, raw⟩ := it
    have hxbr : x ≠ (b, r) := by
      intro e
      exact hx (by simp [e])
    have hxr : x ∉ rest.map (fun item => item.1) := by
      intro e
      exact hx (by simp [e])
    cases hn : normalize_history cols necessary interval exh raw with
    | ok df =>
      simp only [populate_container, hn] at h
      rw [ih (insert_coin_history_in_container c b r df) c2 h hxr]
      simp [insert_coin_history_in_container, hxbr]
    | error e =>
      cases e with
      | emptyDataFrame =>
        simp only [populate_container, hn] at h
        exact ih c c2 h hxr
      | indexError => exact absurd hn (normalize_not_indexError cols necessary interval exh raw)

lemma populate_skip (necessary : List String) (interval : α) (cols : List String)
    (exh : List (List (Option α))) (x : String × String)
    (raw : List (List (Option α))) :
    ∀ (hd : List ((String × String) × List (List (Option α)))) (c c2 : Container α),
      populate_container c necessary interval cols exh hd = Except.ok c2 →
      (hd.map (fun item => item.1)).Nodup →
      (x, raw) ∈ hd →
      normalize_history cols necessary interval exh raw = Except.error HistErr.emptyDataFrame →
      c2 x = c x := by
  intro hd
  induction hd with
  | nil =>
    intro c c2 _ _ hmem
    simp at hmem
  | cons it rest ih =>
    intro c c2 h hnd hmem hnorm
    obtain ⟨⟨b, r⟩, raw2⟩ := it
    rw [List.map_cons] at hnd
    rcases List.mem_cons.mp hmem with heq | hmem2
    · obtain ⟨hq, hraw2⟩ : x = (b, r) ∧ raw = raw2 :=
        ⟨congrArg Prod.fst heq, congrArg Prod.snd heq⟩
      have hnorm2 : normalize_history cols necessary interval exh raw2
          = Except.error HistErr.emptyDataFrame := hraw2 ▸ hnorm
      simp only [populate_container, hnorm2] at h
      have hxr : x ∉ rest.map (fun item => item.1) := by
        rw [hq]
        simpa using (List.nodup_cons.mp hnd).1
      exact populate_frame necessary interval cols exh x rest c c2 h hxr
    · have hnd2 : (rest.map (fun item => item.1)).Nodup := (List.nodup_cons.mp hnd).2
      cases hn : normalize_history cols necessary interval exh raw2 with
      | ok df =>
        simp only [populate_container, hn] at h
        have hxbr : x ≠ (b, r) := by
          intro e
          have hkey : (b, r) ∈ rest.map (fun item => item.1) :=
            e ▸ List.mem_map.mpr ⟨(x, raw), hmem2, rfl⟩
          exact (List.nodup_cons.mp hnd).1 hkey
        rw [ih (insert_coin_history_in_container c b r df) c2 h hnd2 hmem2 hnorm]
        simp [insert_coin_history_in_container, hxbr]
      | error e =>
        cases e with
        | emptyDataFrame =>
          simp only [populate_container, hn] at h
          exact ih c c2 h hnd2 hmem2 hnorm
        | indexError =>
          exact absurd hn (normalize_not_indexError cols necessary interval exh raw2)

lemma populate_write (necessary : List String) (interval : α) (cols : List String)
    (exh : List (List (Option α))) (x : String × String)
    (raw : List (List (Option α))) (df : DF α) :
    ∀ (hd : List ((String × String) × List (List (Option α)))) (c c2 : Container α),
      populate_container c necessary interval cols exh hd = Except.ok c2 →
      (hd.map (fun item => item.1)).Nodup →
      (x, raw) ∈ hd →
      normalize_history cols necessary interval exh raw = Except.ok df →
      c2 x = some df.transpose := by
  intro hd
  induction hd with
  | nil =>
    intro c c2 _ _ hmem
    simp at hmem
  | cons it rest ih =>
    intro c c2 h hnd hmem hnorm
    obtain ⟨⟨b, r⟩, raw2⟩ := it
    rw [List.map_cons] at hnd
    rcases List.mem_cons.mp hmem with heq | hmem2
    · obtain ⟨hq, hraw2⟩ : x = (b, r) ∧ raw = raw2 :=
        ⟨congrArg Prod.fst heq, congrArg Prod.snd heq⟩
      have hnorm2 : normalize_history cols necessary interval exh raw2
          = Except.ok df := hraw2 ▸ hnorm
      simp only [populate_container, hnorm2] at h
      have hxr : x ∉ rest.map (fun item => item.1) := by
        rw [hq]
        simpa using (List.nodup_cons.mp hnd).1
      rw [populate_frame necessary interval cols exh x rest _ c2 h hxr, hq]
      simp [insert_coin_history_in_container]
    · have hnd2 : (rest.map (fun item => item.1)).Nodup := (List.nodup_cons.mp hnd).2
      cases hn : normalize_history cols necessary interval exh raw2 with
      | ok df2 =>
        simp only [populate_container, hn] at h
        exact ih (insert_coin_history_in_container c b r df2) c2 h hnd2 hmem2 hnorm
      | error e =>
        cases e with
        | emptyDataFrame =>
          simp only [populate_container, hn] at h
          exact ih c c2 h hnd2 hmem2 hnorm
        | indexError =>
          exact absurd hn (normalize_not_indexError cols necessary interval exh raw2)

/-- Claim C3: a fetched pair whose raw history has zero records makes
normalization raise EmptyDataFrameException, which populate_container recovers
from locally: that pair's slot stays null, the build completes without
aborting, and every pair with a non-empty raw history is populated with its
normalized (and transposed) table. -/
theorem C3_empty_history_skipped (cols necessary : List String) (interval : α)
    (exh : List (List (Option α)))
    (hd : List ((String × String) × List (List (Option α))))
    (hnd : (hd.map (fun item => item.1)).Nodup)
    (hcols : cols ≠ [])
    (p : String × String) (hp : (p, ([] : List (List (Option α)))) ∈ hd) :
    ∃ c2, populate_container (set_coords_dimensions_in_empty_container α) necessary interval
        cols exh hd = Except.ok c2
      ∧ c2 p = none
      ∧ ∀ q raw, (q, raw) ∈ hd → raw ≠ [] →
          ∃ df, normalize_history cols necessary interval exh raw = Except.ok df
            ∧ c2 q = some df.transpose := by
  obtain ⟨c2, hc2⟩ := populate_ok necessary interval cols exh hd
    (set_coords_dimensions_in_empty_container α)
  refine ⟨c2, hc2, ?_, ?_⟩
  · exact populate_skip necessary interval cols exh p [] hd _ c2 hc2 hnd hp
      (normalize_empty cols necessary interval exh)
  · intro q raw hq hraw
    obtain ⟨df, hdf⟩ := normalize_ok_of_nonempty cols necessary interval exh raw hraw hcols
    exact ⟨df, hdf,
      populate_write necessary interval cols exh q raw df hd _ c2 hc2 hnd hq hdf⟩

/-- Witness for C3: two fetched pairs, one with an empty raw history (slot
stays null) and one with one record (slot populated), the build succeeding. -/
theorem C3_empty_history_skipped_witness :
    ((([(("ETH", "BTC"), ([] : List (List (Option String)))),
        (("LTC", "BTC"), [[some "a"]])].map (fun item => item.1))).Nodup
      ∧ (["open"] : List String) ≠ [])
    ∧ ∃ c2, populate_container (set_coords_dimensions_in_empty_container String)
          ["open", "weight"] "1d" ["open"] [[some "x"]]
          [(("ETH", "BTC"), ([] : List (List (Option String)))),
           (("LTC", "BTC"), [[some "a"]])] = Except.ok c2
        ∧ c2 ("ETH", "BTC") = none
        ∧ ∀ q raw, (q, raw) ∈ [(("ETH", "BTC"), ([] : List (List (Option String)))),
              (("LTC", "BTC"), [[some "a"]])] → raw ≠ [] →
            ∃ df, normalize_history ["open"] ["open", "weight"] "1d" [[some "x"]] raw
                = Except.ok df
              ∧ c2 q = some df.transpose :=
  ⟨⟨by decide, by decide⟩,
   C3_empty_history_skipped ["open"] ["open", "weight"] "1d" [[some "x"]]
     [(("ETH", "BTC"), ([] : List (List (Option String)))),
      (("LTC", "BTC"), [[some "a"]])]
     (by decide) (by decide) ("ETH", "BTC") (by decide)⟩

/-! ### Helper lemmas for slot insertion -/

lemma insert_comm (c : Container α) (b1 r1 b2 r2 : String) (d1 d2 : DF α)
    (h : (b1, r1) ≠ (b2, r2)) :
    insert_coin_history_in_container (insert_coin_history_in_container c b1 r1 d1) b2 r2 d2
      = insert_coin_history_in_container (insert_coin_history_in_container c b2 r2 d2) b1 r1 d1 := by
  funext p
  simp only [insert_coin_history_in_container]
  by_cases h1 : p = (b1, r1)
  · subst h1
    rw [if_neg h, if_pos rfl, if_pos rfl]
  · by_cases h2 : p = (b2, r2)
    · subst h2
      rw [if_pos rfl, if_neg (Ne.symm h), if_pos rfl]
    · rw [if_neg h2, if_neg h1, if_neg h1, if_neg h2]

lemma insert_all_perm {l1 l2 : List ((String × String) × DF α)} (h : l1.Perm l2) :
    (l1.map (fun item => item.1)).Nodup →
      ∀ c : Container α, insert_all c l1 = insert_all c l2 := by
  induction h with
  | nil => exact fun _ _ => rfl
  | cons x h ih =>
    intro hnd c
    rw [List.map_cons] at hnd
    simp only [insert_all, List.foldl_cons]
    exact ih (List.nodup_cons.mp hnd).2 _
  | swap x y l =>
    intro hnd c
    rw [List.map_cons, List.map_cons] at hnd
    have hxy : y.1 ≠ x.1 := by
      have := (List.nodup_cons.mp hnd).1
      simp only [List.mem_cons] at this
      exact fun e => this (Or.inl e)
    simp only [insert_all, List.foldl_cons]
    have hcomm :
        insert_coin_history_in_container
            (insert_coin_history_in_container c y.1.1 y.1.2 y.2) x.1.1 x.1.2 x.2
          = insert_coin_history_in_container
            (insert_coin_history_in_container c x.1.1 x.1.2 x.2) y.1.1 y.1.2 y.2 := by
      apply insert_comm
      simpa using hxy
    rw [hcomm]
  | trans h1 h2 ih1 ih2 =>
    intro hnd c
    rw [ih1 hnd c]
    exact ih2 ((h1.map (fun item => item.1)).nodup hnd) c

lemma insert_all_frame (p : String × String) :
    ∀ (l : List ((String × String) × DF α)) (c : Container α),
      p ∉ l.map (fun item => item.1) → insert_all c l p = c p := by
  intro l
  induction l with
  | nil => exact fun _ _ => rfl
  | cons x t ih =>
    intro c hp
    have hpx : p ≠ x.1 := by
      intro e
      exact hp (by simp [e])
    have hpt : p ∉ t.map (fun item => item.1) := by
      intro e
      exact hp (by simp [e])
    simp only [insert_all, List.foldl_cons] at *
    rw [ih _ hpt]
    simp only [insert_coin_history_in_container]
    rw [if_neg]
    intro e
    exact hpx (by simpa using e)

lemma insert_all_mem (item : (String × String) × DF α) :
    ∀ (l : List ((String × String) × DF α)) (c : Container α),
      (l.map (fun it => it.1)).Nodup → item ∈ l →
      insert_all c l item.1 = some item.2.transpose := by
  intro l
  induction l with
  | nil =>
    intro c _ hmem
    simp at hmem
  | cons x t ih =>
    intro c hnd hmem
    rw [List.map_cons] at hnd
    simp only [insert_all, List.foldl_cons]
    rcases List.mem_cons.mp hmem with rfl | hmem2
    · have hx : item.1 ∉ t.map (fun it => it.1) := (List.nodup_cons.mp hnd).1
      have hframe := insert_all_frame item.1 t
        (insert_coin_history_in_container c item.1.1 item.1.2 item.2) hx
      simp only [insert_all] at hframe
      rw [hframe]
      simp [insert_coin_history_in_container]
    · exact ih _ (List.nodup_cons.mp hnd).2 hmem2

/-- Claim C8: over any collection of successfully normalized per-pair tables
with pairwise distinct (base, reference) coordinates, iterated insertion is
order-independent (any permutation yields the same final Container), each
insertion writes the transposed table into exactly its own slot, overwriting
whatever was there, and coordinates not in the collection keep their prior
value (distinct pairs write to disjoint slots). -/
theorem C8_insertion_order_independent (c : Container α)
    (l1 l2 : List ((String × String) × DF α)) (hperm : l1.Perm l2)
    (hnd : (l1.map (fun item => item.1)).Nodup) :
    insert_all c l1 = insert_all c l2
    ∧ (∀ item ∈ l1, insert_all c l1 item.1 = some item.2.transpose)
    ∧ (∀ p, p ∉ l1.map (fun item => item.1) → insert_all c l1 p = c p) :=
  ⟨insert_all_perm hperm hnd c,
   fun item hmem => insert_all_mem item l1 c hnd hmem,
   fun p hp => insert_all_frame p l1 c hp⟩

/-- Witness for C8: two distinct pairs inserted in both orders produce the
same container, with each slot holding its own transposed table. -/
theorem C8_insertion_order_independent_witness :
    (([(("ETH", "BTC"), mkDataFrame ["open"] [[some (1 : Nat)]]),
       (("LTC", "BTC"), mkDataFrame ["open"] [[some (2 : Nat)]])].Perm
       [(("LTC", "BTC"), mkDataFrame ["open"] [[some (2 : Nat)]]),
        (("ETH", "BTC"), mkDataFrame ["open"] [[some (1 : Nat)]])])
      ∧ (([(("ETH", "BTC"), mkDataFrame ["open"] [[some (1 : Nat)]]),
           (("LTC", "BTC"), mkDataFrame ["open"] [[some (2 : Nat)]])].map
             (fun item => item.1))).Nodup)
    ∧ insert_all (set_coords_dimensions_in_empty_container Nat)
          [(("ETH", "BTC"), mkDataFrame ["open"] [[some (1 : Nat)]]),
           (("LTC", "BTC"), mkDataFrame ["open"] [[some (2 : Nat)]])]
        = insert_all (set_coords_dimensions_in_empty_container Nat)
          [(("LTC", "BTC"), mkDataFrame ["open"] [[some (2 : Nat)]]),
           (("ETH", "BTC"), mkDataFrame ["open"] [[some (1 : Nat)]])] :=
  ⟨⟨by decide, by decide⟩,
   (C8_insertion_order_independent (set_coords_dimensions_in_empty_container Nat)
     [(("ETH", "BTC"), mkDataFrame ["open"] [[some (1 : Nat)]]),
      (("LTC", "BTC"), mkDataFrame ["open"] [[some (2 : Nat)]])]
     [(("LTC", "BTC"), mkDataFrame ["open"] [[some (2 : Nat)]]),
      (("ETH", "BTC"), mkDataFrame ["open"] [[some (1 : Nat)]])]
     (by decide) (by decide)).1⟩

end CryptoHistory
